import Mathlib

/-!
Verification of the Terra solar-system simulator's core subsystems against
its natural-language specification.

The embedding below translates the JavaScript sources into Lean:

* `src/PhysicsEngine.js` — the N-body Euler integrator (`update`), orbital
  velocity seeding (`initializeOrbitalVelocities`), and registry operations
  (`addBody`, `removeBodyByName`).
* `src/SolarSystemBuilder.js` — asteroid-belt group creation and rebuild
  (`_createAsteroidBeltGroups`, `rebuildAsteroidBelt`).
* `src/spaceshipFactory.js` — hull radius interpolation
  (`getRadiusAtHeight`) and part attachment placement (`createWings`,
  `createPods`, `createAntennas`, decorative details).

JavaScript numbers are modelled as real numbers; `Math.sqrt`, `Math.cos`
and `Math.sin` become `Real.sqrt`, `Real.cos`, `Real.sin`.  Vectors
(`THREE.Vector3`) are triples of reals.  The physics registry is a list of
bodies; the in-place mutation of the JS engine becomes explicit state
passing, preserving the exact iteration order of the source loops.
-/

namespace Terra

/-- A 3-vector of real numbers, standing for `THREE.Vector3`. -/
abbrev Vec3 : Type := ℝ × ℝ × ℝ

namespace Vec3

/-- The x component. -/
def x (v : Vec3) : ℝ := v.1

/-- The y component. -/
def y (v : Vec3) : ℝ := v.2.1

/-- The z component. -/
def z (v : Vec3) : ℝ := v.2.2

/-- `Vector3.lengthSq()`: squared Euclidean norm `x*x + y*y + z*z`. -/
def lengthSq (v : Vec3) : ℝ := v.x * v.x + v.y * v.y + v.z * v.z

/-- `Vector3.length()`: Euclidean norm. -/
noncomputable def length (v : Vec3) : ℝ := Real.sqrt v.lengthSq

/-- `Vector3.normalize()`.  three.js divides by `this.length() || 1`, so the
zero vector is left unchanged instead of producing `NaN`. -/
noncomputable def normalize (v : Vec3) : Vec3 :=
  if length v = 0 then v else (length v)⁻¹ • v

end Vec3

/-- `GRAVITATIONAL_CONSTANT` from `src/config.js`. -/
noncomputable def GRAVITATIONAL_CONSTANT : ℝ := 0.005

/-- `SUN_MASS` from `src/config.js`. -/
noncomputable def SUN_MASS : ℝ := 333000

/-- A physics body held in `PhysicsEngine.celestialBodies`.  The `mesh`
field of the source is a rendering handle whose position merely mirrors
`position` (`body.mesh.position.copy(body.position)`), so it is not
carried here. -/
structure Body where
  name : String
  mass : ℝ
  position : Vec3
  velocity : Vec3

/-- Raw argument record passed to `PhysicsEngine.addBody`.  The source
validates JavaScript truthiness of each field, so fields that may be
absent (`undefined`) are `Option`s, and `mesh` only matters through its
presence. -/
structure RawBody where
  name : String
  mesh : Bool
  mass : Option ℝ
  position : Option Vec3
  velocity : Option Vec3

/-- `PhysicsEngine.addBody(body)`: pushes the body onto the registry when
`body.name && body.mesh && body.mass !== undefined && body.position &&
body.velocity` all hold (an empty string is falsy), otherwise logs an
error and leaves the registry unchanged. -/
def addBody (l : List Body) (r : RawBody) : List Body :=
  match r.mass, r.position, r.velocity with
  | some m, some p, some v =>
      if r.name ≠ "" ∧ r.mesh then l ++ [⟨r.name, m, p, v⟩] else l
  | _, _, _ => l

/-- `PhysicsEngine.removeBodyByName(name)`. -/
def removeBodyByName (l : List Body) (n : String) : List Body :=
  l.filter (fun b => b.name ≠ n)

/-- `PhysicsEngine.getBodyByName(name)`: first body with the given name. -/
def getBodyByName (l : List Body) (n : String) : Option Body :=
  l.find? (fun b => b.name = n)

/-- One summand of the force-accumulation inner loop of
`PhysicsEngine.update` (lines 90–102): the gravitational pull of `bJ` on
`bI`, zero when the squared separation is below `epsilonSq = 0.1 * 0.1`. -/
noncomputable def pairAccumTerm (bI bJ : Body) : Vec3 :=
  let d : Vec3 := bJ.position - bI.position
  let distanceSq := d.lengthSq
  if distanceSq < 0.01 then 0
  else (GRAVITATIONAL_CONSTANT * bI.mass * bJ.mass / distanceSq) • d.normalize

/-- The net force accumulated on `bI` by iterating the inner loop over
`others` (every registry body except `bI` itself, which the source skips
by object identity). -/
noncomputable def netForce (bI : Body) (others : List Body) : Vec3 :=
  (others.map (pairAccumTerm bI)).sum

/-- The velocity update of `PhysicsEngine.update` (lines 104–111): skipped
with a warning when the body's mass is zero (or undefined), otherwise
`v += (F / m) * dt`. -/
noncomputable def velStep (dt : ℝ) (b : Body) (f : Vec3) : Body :=
  if b.mass = 0 then b
  else { b with velocity := b.velocity + dt • (b.mass⁻¹ • f) }

/-- The position update of `PhysicsEngine.update` (line 116):
`p += v * dt`. -/
noncomputable def posStep (dt : ℝ) (b : Body) : Body :=
  { b with position := b.position + dt • b.velocity }

/-- What one iteration of the force/velocity loop does to one body, given
the other bodies `ctx` its inner loop ranges over: a body named `"Sun"`
is excluded by the `bodiesToUpdate` filter and left unchanged; any other
body gets `velStep` applied to its accumulated `netForce`. -/
noncomputable def stepVel (dt : ℝ) (b : Body) (ctx : List Body) : Body :=
  if b.name = "Sun" then b else velStep dt b (netForce b ctx)

/-- The force/velocity pass of `PhysicsEngine.update` as the source runs
it: bodies are processed in registry order, each body's force is summed
over every other body of the *current* list (`prev` already carries the
updated velocities of earlier bodies), and its velocity is overwritten
before the next body is processed. -/
noncomputable def velPass (dt : ℝ) (prev : List Body) : List Body → List Body
  | [] => []
  | b :: rest =>
      let b2 := stepVel dt b (prev ++ rest)
      b2 :: velPass dt (prev ++ [b2]) rest

/-- The reference two-phase force/velocity pass: identical to `velPass`
except that every body's force is evaluated against the *pre-step* list
(`prev` keeps the original bodies). -/
noncomputable def refVelPass (dt : ℝ) (prev : List Body) : List Body → List Body
  | [] => []
  | b :: rest =>
      stepVel dt b (prev ++ rest) :: refVelPass dt (prev ++ [b]) rest

/-- The position pass of `PhysicsEngine.update` (lines 115–118): every
non-`"Sun"` body moves by `v * dt`; the position update of a body reads
only that body. -/
noncomputable def posPass (dt : ℝ) (l : List Body) : List Body :=
  l.map (fun b => if b.name = "Sun" then b else posStep dt b)

/-- `PhysicsEngine.update(delta)` after the `simulationEnabled` guard,
with the timestep not yet clamped. -/
noncomputable def updateRaw (l : List Body) (dt : ℝ) : List Body :=
  posPass dt (velPass dt [] l)

/-- `PhysicsEngine.update(delta)`: clamps `dt = Math.min(delta, 0.016)`
and runs the force/velocity pass followed by the position pass.  (When
`simulationEnabled` is false the method returns without touching the
registry; the claims concern the enabled engine.) -/
noncomputable def update (l : List Body) (delta : ℝ) : List Body :=
  updateRaw l (min delta 0.016)

/-- The reference two-phase step: all net forces and velocities are
computed from the pre-step registry, then all positions move. -/
noncomputable def twoPhase (l : List Body) (dt : ℝ) : List Body :=
  posPass dt (refVelPass dt [] l)

/-- Iterated `update` over a sequence of frame deltas. -/
noncomputable def updates (l : List Body) (ds : List ℝ) : List Body :=
  ds.foldl update l

/-- `PhysicsEngine.initializeOrbitalVelocities()`: finds the body named
`"Sun"`; if absent, logs an error and leaves the registry untouched.
Otherwise every non-`"Sun"` body gets a circular-orbit velocity: zero when
`|position| < 0.1`; otherwise speed `sqrt(G * sun.mass / radius)` along
`normalize((-z, 0, x))` when `|x| > 0.01 || |y| > 0.01`, and `(0, 0,
-speed)` otherwise. -/
noncomputable def initializeOrbitalVelocities (l : List Body) : List Body :=
  match getBodyByName l "Sun" with
  | none => l
  | some sun =>
      l.map (fun b =>
        if b.name = "Sun" then b
        else
          let radius := b.position.length
          if radius < 0.1 then { b with velocity := 0 }
          else
            let speed := Real.sqrt (GRAVITATIONAL_CONSTANT * sun.mass / radius)
            if 0.01 < |b.position.x| ∨ 0.01 < |b.position.y| then
              { b with velocity :=
                  speed • Vec3.normalize (-b.position.z, 0, b.position.x) }
            else { b with velocity := (0, 0, -speed) })

/-! ### A division-checked mirror of `update`

JavaScript floating point turns `x / 0` into `Infinity` (or `NaN` for
`0 / 0`) and propagates it.  Reals have no such values, so singularity
safety is expressed through an `Option`-valued mirror of the step in
which every division of the source returns `none` when its divisor is
zero (the `length || 1` fallback inside `Vector3.normalize` already never
divides by zero and is kept as in the plain model). -/

/-- Checked division, `none` on a zero divisor. -/
noncomputable def divChecked (a b : ℝ) : Option ℝ :=
  if b = 0 then none else some (a / b)

/-- Checked `divideScalar` of `Vector3`, `none` on a zero divisor. -/
noncomputable def smulInvChecked (m : ℝ) (v : Vec3) : Option Vec3 :=
  if m = 0 then none else some (m⁻¹ • v)

/-- `pairAccumTerm` with the `forceMagnitude = G*mI*mJ/distanceSq`
division checked. -/
noncomputable def pairAccumTermChecked (bI bJ : Body) : Option Vec3 :=
  let d : Vec3 := bJ.position - bI.position
  let distanceSq := d.lengthSq
  if distanceSq < 0.01 then some 0
  else
    (divChecked (GRAVITATIONAL_CONSTANT * bI.mass * bJ.mass) distanceSq).map
      (fun fm => fm • d.normalize)

/-- `netForce` with every summand checked. -/
noncomputable def netForceChecked (bI : Body) (others : List Body) : Option Vec3 :=
  others.foldr
    (fun o acc => do
      let t ← pairAccumTermChecked bI o
      let s ← acc
      pure (t + s))
    (some 0)

/-- `velStep` with the `force / mass` division checked (after the source's
own zero-mass guard). -/
noncomputable def velStepChecked (dt : ℝ) (b : Body) (f : Vec3) : Option Body :=
  if b.mass = 0 then some b
  else
    (smulInvChecked b.mass f).map
      (fun a => { b with velocity := b.velocity + dt • a })

/-- `velPass` with all divisions checked. -/
noncomputable def velPassChecked (dt : ℝ) (prev : List Body) :
    List Body → Option (List Body)
  | [] => some []
  | b :: rest =>
      if b.name = "Sun" then
        (velPassChecked dt (prev ++ [b]) rest).map (fun t => b :: t)
      else do
        let f ← netForceChecked b (prev ++ rest)
        let b2 ← velStepChecked dt b f
        let t ← velPassChecked dt (prev ++ [b2]) rest
        pure (b2 :: t)

/-- `update` with all divisions checked (the position pass divides
nowhere). -/
noncomputable def updateChecked (l : List Body) (delta : ℝ) : Option (List Body) :=
  (velPassChecked (min delta 0.016) [] l).map (posPass (min delta 0.016))

/-! ### The anchor-free uniform step

When no body is named `"Sun"`, the `bodiesToUpdate` filter of `update`
keeps everything, so the step should coincide with a step that exempts
nobody. -/

/-- `velPass` without the `"Sun"` exemption. -/
noncomputable def velPassUniform (dt : ℝ) (prev : List Body) : List Body → List Body
  | [] => []
  | b :: rest =>
      let b2 := velStep dt b (netForce b (prev ++ rest))
      b2 :: velPassUniform dt (prev ++ [b2]) rest

/-- `update` without the `"Sun"` exemption: every registry body gets the
velocity and position integration. -/
noncomputable def updateUniform (l : List Body) (delta : ℝ) : List Body :=
  let dt := min delta 0.016
  (velPassUniform dt [] l).map (posStep dt)

/-! ### Asteroid-belt construction (`src/SolarSystemBuilder.js`)

Only the data relevant to the physics registry is modelled: the group
anchors (plain `THREE.Object3D`s created by `createOrbitAnchor` in
`src/celestialFactory.js`, whose `name` property is never assigned and so
keeps the `Object3D` default `""`), and the bodies added via
`physicsEngine.addBody`.  Scene-graph and `planetOrbits` bookkeeping does
not touch the registry and is omitted. -/

/-- A belt group anchor: a fresh `THREE.Object3D`.  `objName` is the
`Object3D.name` property, which `createOrbitAnchor` leaves at its default
`""`; `position` is set from the group angle and average belt radius. -/
structure Anchor where
  objName : String
  position : Vec3

/-- The fields of one `ASTEROID_BELT_DATA` entry that the registry-facing
code reads (`count`, `totalMass`, radii; `thickness`, color and particle
size only affect rendering). -/
structure BeltData where
  name : String
  count : ℕ
  totalMass : ℝ
  innerRadius : ℝ
  outerRadius : ℝ

/-- `Math.ceil(totalPoints / groupSize)` for natural inputs. -/
def numGroups (count groupSize : ℕ) : ℕ := (count + groupSize - 1) / groupSize

/-- The builder state touched by belt creation: the physics registry and
`asteroidGroupAnchors[beltName]`. -/
structure BuilderState where
  bodies : List Body
  beltAnchors : List Anchor

/-- The anchor built for group `g` of `n` (`_createAsteroidBeltGroups`
lines 194–204): a nameless `Object3D` placed at angle `(g/n)·2π` on the
average belt radius. -/
noncomputable def mkGroupAnchor (belt : BeltData) (n g : ℕ) : Anchor :=
  let groupAngle := ((g : ℝ) / n) * Real.pi * 2
  let groupRadius := (belt.innerRadius + belt.outerRadius) / 2
  ⟨"", (Real.cos groupAngle * groupRadius, 0, Real.sin groupAngle * groupRadius)⟩

/-- The record passed to `physicsEngine.addBody` for group `g`
(`_createAsteroidBeltGroups` lines 242–248). -/
noncomputable def mkGroupRaw (belt : BeltData) (n g : ℕ) (groupMass : ℝ) : RawBody :=
  { name := belt.name ++ "_Group_" ++ toString g
  , mesh := true
  , mass := some groupMass
  , position := some (mkGroupAnchor belt n g).position
  , velocity := some (0, 0, 0) }

/-- `SolarSystemBuilder._createAsteroidBeltGroups(beltData, groupSize)`:
resets the belt's anchor list, then for each of `numGroups` groups pushes
a fresh anchor and adds a physics body of mass `totalMass / numGroups`
named `beltName + "_Group_" + g`. -/
noncomputable def createAsteroidBeltGroups (belt : BeltData) (groupSize : ℕ)
    (st : BuilderState) : BuilderState :=
  let n := numGroups belt.count groupSize
  let groupMass := belt.totalMass / n
  (List.range n).foldl
    (fun s g =>
      { bodies := addBody s.bodies (mkGroupRaw belt n g groupMass)
      , beltAnchors := s.beltAnchors ++ [mkGroupAnchor belt n g] })
    { st with beltAnchors := [] }

/-- `SolarSystemBuilder.rebuildAsteroidBelt(beltName, newGroupSize)` for a
belt present in `ASTEROID_BELT_DATA`: for every stored anchor it calls
`physicsEngine.removeBodyByName(anchor.name)`, then recreates the groups
with the new size. -/
noncomputable def rebuildAsteroidBelt (belt : BeltData) (newGroupSize : ℕ)
    (st : BuilderState) : BuilderState :=
  let bodies1 := st.beltAnchors.foldl (fun bs a => removeBodyByName bs a.objName) st.bodies
  createAsteroidBeltGroups belt newGroupSize
    { bodies := bodies1, beltAnchors := st.beltAnchors }

/-! ### Spaceship part attachment (`src/spaceshipFactory.js`)

The stochastic generator is embedded as functions of the values the
random draws produced; each attachment-point definition mirrors the
`position.x/y/z` assignments of the corresponding part constructor. -/

/-- `SpaceshipFactory.getRadiusAtHeight(yPos, bodyLength, bottomRadius,
topRadius)`: hull radius linearly interpolated along the long axis with
the interpolation fraction clamped to `[0, 1]`. -/
noncomputable def getRadiusAtHeight (yPos bodyLength bottomRadius topRadius : ℝ) : ℝ :=
  let heightRatio := (yPos + bodyLength / 2) / bodyLength
  let clampedRatio := max 0 (min 1 heightRatio)
  bottomRadius + (topRadius - bottomRadius) * clampedRatio

/-- The position given to wing `i` of `wingCount` in `createWings`
(lines 158–164): angle `2π/wingCount · i`, radial offset
`getRadiusAtHeight(wingPositionY, …) * 0.95`. -/
noncomputable def wingAttachPoint (wingCount i : ℕ)
    (wingPositionY bodyLength bodyBottomRadius bodyTopRadius : ℝ) : Vec3 :=
  let angle := (2 * Real.pi / wingCount) * i
  let attachRadius := getRadiusAtHeight wingPositionY bodyLength bodyBottomRadius bodyTopRadius
  let radialPosition := attachRadius * 0.95
  (Real.cos angle * radialPosition, wingPositionY, Real.sin angle * radialPosition)

/-- The position given to pod `i` of `podCount` in `createPods`
(lines 391–402): radial offset `attachRadius + podRadius * 0.6`. -/
noncomputable def podAttachPoint (podCount i : ℕ)
    (podPositionY bodyLength bodyBottomRadius bodyTopRadius podRadius : ℝ) : Vec3 :=
  let angle := (2 * Real.pi / podCount) * i
  let attachRadius := getRadiusAtHeight podPositionY bodyLength bodyBottomRadius bodyTopRadius
  let radialPosition := attachRadius + podRadius * 0.6
  (Real.cos angle * radialPosition, podPositionY, Real.sin angle * radialPosition)

/-- The hull-surface base position of an antenna in `createAntennas`
(lines 282–289). -/
noncomputable def antennaBasePoint
    (antennaAngle antennaHeight bodyLength bodyBottomRadius bodyTopRadius : ℝ) : Vec3 :=
  let surfaceRadius := getRadiusAtHeight antennaHeight bodyLength bodyBottomRadius bodyTopRadius
  (Real.cos antennaAngle * surfaceRadius, antennaHeight, Real.sin antennaAngle * surfaceRadius)

/-- The hull-surface position of a decorative detail in `createSpaceship`
(lines 495–503). -/
noncomputable def detailPoint
    (detailAngle detailHeight bodyLength bodyBottomRadius bodyTopRadius : ℝ) : Vec3 :=
  let surfaceRadius := getRadiusAtHeight detailHeight bodyLength bodyBottomRadius bodyTopRadius
  (Real.cos detailAngle * surfaceRadius, detailHeight, Real.sin detailAngle * surfaceRadius)

/-- Radial distance of a point from the hull's long (Y) axis. -/
noncomputable def axialDist (v : Vec3) : ℝ := Real.sqrt (v.x * v.x + v.z * v.z)

/-! ### Lemmas: the force computation reads only names, masses, positions -/

/-- Two bodies that agree on everything the force loop reads (velocity is
free). -/
def Agree (a b : Body) : Prop :=
  a.name = b.name ∧ a.mass = b.mass ∧ a.position = b.position

lemma agree_refl (b : Body) : Agree b b := ⟨rfl, rfl, rfl⟩

lemma pairAccumTerm_congr {b1 b2 o1 o2 : Body} (hb : Agree b1 b2)
    (ho : Agree o1 o2) : pairAccumTerm b1 o1 = pairAccumTerm b2 o2 := by
  obtain ⟨-, hbm, hbp⟩ := hb
  obtain ⟨-, hom, hop⟩ := ho
  simp only [pairAccumTerm, hbm, hbp, hom, hop]

lemma netForce_congr (b : Body) {l1 l2 : List Body}
    (h : List.Forall₂ Agree l1 l2) : netForce b l1 = netForce b l2 := by
  induction h with
  | nil => rfl
  | cons ho _ ih =>
      simp only [netForce, List.map_cons, List.sum_cons] at ih ⊢
      rw [pairAccumTerm_congr (agree_refl b) ho, ih]

lemma netForce_perm (b : Body) {l1 l2 : List Body} (h : l1.Perm l2) :
    netForce b l1 = netForce b l2 :=
  List.Perm.sum_eq (h.map (pairAccumTerm b))

lemma velStep_name (dt : ℝ) (b : Body) (f : Vec3) :
    (velStep dt b f).name = b.name := by
  unfold velStep; split <;> rfl

lemma velStep_mass (dt : ℝ) (b : Body) (f : Vec3) :
    (velStep dt b f).mass = b.mass := by
  unfold velStep; split <;> rfl

lemma velStep_position (dt : ℝ) (b : Body) (f : Vec3) :
    (velStep dt b f).position = b.position := by
  unfold velStep; split <;> rfl

lemma stepVel_agree (dt : ℝ) (b : Body) (ctx : List Body) :
    Agree (stepVel dt b ctx) b := by
  unfold stepVel
  split
  · exact agree_refl b
  · exact ⟨velStep_name .., velStep_mass .., velStep_position ..⟩

lemma stepVel_mass_zero (dt : ℝ) {b : Body} (ctx : List Body)
    (h : b.mass = 0) : stepVel dt b ctx = b := by
  unfold stepVel velStep
  simp [h]

lemma forall₂_append {α β : Type} {R : α → β → Prop} {l1 u1 : List α}
    {l2 u2 : List β} (h : List.Forall₂ R l1 l2) (h2 : List.Forall₂ R u1 u2) :
    List.Forall₂ R (l1 ++ u1) (l2 ++ u2) :=
  List.rel_append h h2

lemma stepVel_congr {dt : ℝ} {b : Body} {c1 c2 : List Body}
    (h : netForce b c1 = netForce b c2) :
    stepVel dt b c1 = stepVel dt b c2 := by
  unfold stepVel; rw [h]

lemma forall₂_agree_refl (l : List Body) : List.Forall₂ Agree l l :=
  List.forall₂_same.2 (fun b _ => agree_refl b)

/-- The sequential pass equals the two-phase reference pass: the already
updated prefix differs from the pre-step prefix only in velocities, which
the force computation never reads. -/
lemma velPass_eq_refVelPass (dt : ℝ) :
    ∀ (todo prev1 prev2 : List Body), List.Forall₂ Agree prev1 prev2 →
      velPass dt prev1 todo = refVelPass dt prev2 todo := by
  intro todo
  induction todo with
  | nil => intro _ _ _; rfl
  | cons b rest ih =>
      intro prev1 prev2 h
      have hctx : netForce b (prev1 ++ rest) = netForce b (prev2 ++ rest) :=
        netForce_congr b (forall₂_append h (forall₂_agree_refl rest))
      simp only [velPass, refVelPass, stepVel_congr hctx]
      rw [ih (prev1 ++ [stepVel dt b (prev2 ++ rest)]) (prev2 ++ [b])
        (forall₂_append h (List.forall₂_cons.2 ⟨stepVel_agree dt b _, List.Forall₂.nil⟩))]

lemma updateRaw_eq_twoPhase (l : List Body) (dt : ℝ) :
    updateRaw l dt = twoPhase l dt := by
  unfold updateRaw twoPhase
  rw [velPass_eq_refVelPass dt l [] [] List.Forall₂.nil]

lemma update_eq_twoPhase (l : List Body) (delta : ℝ) :
    update l delta = twoPhase l (min delta 0.016) :=
  updateRaw_eq_twoPhase l (min delta 0.016)

lemma stepVel_ctx_perm {dt : ℝ} {b : Body} {c1 c2 : List Body}
    (h : c1.Perm c2) : stepVel dt b c1 = stepVel dt b c2 :=
  stepVel_congr (netForce_perm b h)

/-- The reference pass only reads its context up to permutation. -/
lemma refVelPass_ctx_perm (dt : ℝ) :
    ∀ (todo prev1 prev2 : List Body), prev1.Perm prev2 →
      refVelPass dt prev1 todo = refVelPass dt prev2 todo := by
  intro todo
  induction todo with
  | nil => intro _ _ _; rfl
  | cons b rest ih =>
      intro prev1 prev2 h
      simp only [refVelPass, stepVel_ctx_perm (h.append_right rest)]
      rw [ih (prev1 ++ [b]) (prev2 ++ [b]) (h.append_right [b])]

/-- Iterating the reference pass over a permuted registry permutes the
output: each body's result depends only on its own pre-step record and
the multiset of the others. -/
lemma refVelPass_perm (dt : ℝ) :
    ∀ {l1 l2 : List Body}, l1.Perm l2 →
      ∀ prev1 prev2, prev1.Perm prev2 →
        (refVelPass dt prev1 l1).Perm (refVelPass dt prev2 l2) := by
  intro l1 l2 h
  induction h with
  | nil => intro _ _ _; exact List.Perm.refl _
  | @cons x t1 t2 htail ih =>
      intro prev1 prev2 hp
      simp only [refVelPass]
      rw [stepVel_ctx_perm (hp.append htail)]
      exact (ih (prev1 ++ [x]) (prev2 ++ [x]) (hp.append_right [x])).cons _
  | @swap x y t =>
      intro prev1 prev2 hp
      simp only [refVelPass]
      have hy : stepVel dt y (prev1 ++ x :: t)
          = stepVel dt y ((prev2 ++ [x]) ++ t) :=
        stepVel_ctx_perm (by rw [List.append_assoc]; exact hp.append_right (x :: t))
      have hx : stepVel dt x ((prev1 ++ [y]) ++ t)
          = stepVel dt x (prev2 ++ y :: t) :=
        stepVel_ctx_perm (by rw [List.append_assoc]; exact hp.append_right (y :: t))
      have ht : refVelPass dt ((prev1 ++ [y]) ++ [x]) t
          = refVelPass dt ((prev2 ++ [x]) ++ [y]) t :=
        refVelPass_ctx_perm dt t _ _ (by
          rw [List.append_assoc, List.append_assoc]
          exact hp.append (List.Perm.swap x y []))
      rw [hy, hx, ht]
      exact List.Perm.swap _ _ _
  | trans h1 h2 ih1 ih2 =>
      intro prev1 prev2 hp
      exact (ih1 prev1 prev1 (List.Perm.refl _)).trans (ih2 prev1 prev2 hp)

lemma update_perm {l1 l2 : List Body} (delta : ℝ) (h : l1.Perm l2) :
    (update l1 delta).Perm (update l2 delta) := by
  rw [update_eq_twoPhase, update_eq_twoPhase]
  exact (refVelPass_perm _ h [] [] (List.Perm.refl _)).map _

/-! ### Lemmas: what one `update` preserves, body by body -/

lemma forall₂_comp {α β γ : Type} {P : α → β → Prop} {Q : β → γ → Prop}
    {R : α → γ → Prop} (hc : ∀ a b c, P a b → Q b c → R a c) :
    ∀ {l1 : List α} {l2 : List β} {l3 : List γ},
      List.Forall₂ P l1 l2 → List.Forall₂ Q l2 l3 → List.Forall₂ R l1 l3 := by
  intro l1 l2 l3 h
  induction h generalizing l3 with
  | nil => intro h2; cases h2; exact List.Forall₂.nil
  | cons hab _ ih =>
      intro h2
      cases h2 with
      | cons hbc htail => exact List.Forall₂.cons (hc _ _ _ hab hbc) (ih htail)

/-- Elementwise guarantees of the force/velocity pass: names, masses and
positions are untouched, and a zero-mass body also keeps its velocity. -/
lemma velPass_forall₂ (dt : ℝ) :
    ∀ (todo prev : List Body),
      List.Forall₂
        (fun o n2 => n2.name = o.name ∧ n2.mass = o.mass ∧
          n2.position = o.position ∧
          (o.mass = 0 ∨ o.name = "Sun" → n2.velocity = o.velocity))
        todo (velPass dt prev todo) := by
  intro todo
  induction todo with
  | nil => intro _; exact List.Forall₂.nil
  | cons b rest ih =>
      intro prev
      simp only [velPass]
      refine List.Forall₂.cons ?_ (ih _)
      obtain ⟨hn, hm, hp⟩ := stepVel_agree dt b (prev ++ rest)
      refine ⟨hn, hm, hp, ?_⟩
      rintro (h0 | hsun)
      · rw [stepVel_mass_zero dt _ h0]
      · unfold stepVel
        rw [if_pos hsun]

/-- Elementwise guarantees of the position pass: names, masses and
velocities are untouched; a `"Sun"` keeps its position, anything else
moves by `dt • velocity`. -/
lemma posPass_forall₂ (dt : ℝ) (l : List Body) :
    List.Forall₂
      (fun o n2 => n2.name = o.name ∧ n2.mass = o.mass ∧
        n2.velocity = o.velocity ∧
        n2.position = (if o.name = "Sun" then o.position
          else o.position + dt • o.velocity))
      l (posPass dt l) := by
  induction l with
  | nil => exact List.Forall₂.nil
  | cons b rest ih =>
      simp only [posPass, List.map_cons] at ih ⊢
      refine List.Forall₂.cons ?_ ih
      by_cases h : b.name = "Sun" <;> simp [h, posStep]

/-- Elementwise guarantees of one `update` call. -/
lemma update_forall₂ (l : List Body) (delta : ℝ) :
    List.Forall₂
      (fun o n2 => n2.name = o.name ∧ n2.mass = o.mass ∧
        (o.name = "Sun" → n2.position = o.position ∧ n2.velocity = o.velocity) ∧
        ((o.mass = 0 ∧ o.name ≠ "Sun") → n2.velocity = o.velocity ∧
          n2.position = o.position + (min delta 0.016) • o.velocity))
      l (update l delta) := by
  have h1 := velPass_forall₂ (min delta 0.016) l []
  have h2 := posPass_forall₂ (min delta 0.016) (velPass (min delta 0.016) [] l)
  refine forall₂_comp ?_ h1 h2
  rintro o m n2 ⟨hmn, hmm, hmp, hmv⟩ ⟨hnn, hnm, hnv, hnp⟩
  refine ⟨hnn.trans hmn, hnm.trans hmm, ?_, ?_⟩
  · intro hsun
    rw [hmn, hsun] at hnp
    simp only [if_pos rfl] at hnp
    exact ⟨hnp.trans hmp, hnv.trans (hmv (Or.inr hsun))⟩
  · rintro ⟨h0, hns⟩
    have hvm : m.velocity = o.velocity := hmv (Or.inl h0)
    have : ¬ m.name = "Sun" := by rw [hmn]; exact hns
    rw [if_neg this] at hnp
    exact ⟨hnv.trans hvm, by rw [hnp, hmp, hvm]⟩

/-- Across any sequence of `update` calls, every body keeps its name and a
`"Sun"` keeps its position. -/
lemma updates_forall₂ :
    ∀ (ds : List ℝ) (l : List Body),
      List.Forall₂
        (fun o n2 => n2.name = o.name ∧ (o.name = "Sun" → n2.position = o.position))
        l (updates l ds) := by
  intro ds
  induction ds with
  | nil =>
      intro l
      exact List.forall₂_same.2 (fun b _ => ⟨rfl, fun _ => rfl⟩)
  | cons d ds ih =>
      intro l
      have h1 := update_forall₂ l d
      have h2 := ih (update l d)
      have hstep : updates l (d :: ds) = updates (update l d) ds := rfl
      rw [hstep]
      refine forall₂_comp ?_ h1 h2
      rintro o m n2 ⟨hmn, -, hsun, -⟩ ⟨hn, hp⟩
      refine ⟨hn.trans hmn, fun hs => ?_⟩
      have hms : m.name = "Sun" := hmn.trans hs
      exact (hp hms).trans (hsun hs).1

lemma forall₂_getElem? {α β : Type} {R : α → β → Prop} :
    ∀ {l1 : List α} {l2 : List β}, List.Forall₂ R l1 l2 →
      ∀ (i : ℕ) (a : α), l1[i]? = some a →
        ∃ b, l2[i]? = some b ∧ R a b := by
  intro l1 l2 h
  induction h with
  | nil => intro i a ha; simp at ha
  | cons hab htail ih =>
      intro i a ha
      match i with
      | 0 =>
          simp only [List.getElem?_cons_zero, Option.some.injEq] at ha
          exact ⟨_, by simp, ha ▸ hab⟩
      | (n + 1) =>
          simp only [List.getElem?_cons_succ] at ha ⊢
          exact ih n a ha

/-- Splitting one summand out of the accumulated net force: the body
`sun` sitting anywhere in the inner-loop list contributes exactly its
pair term. -/
lemma netForce_append_cons (bI sun : Body) (pre post : List Body) :
    netForce bI (pre ++ sun :: post)
      = netForce bI (pre ++ post) + pairAccumTerm bI sun := by
  unfold netForce
  simp only [List.map_append, List.map_cons, List.sum_append, List.sum_cons]
  abel

/-! ### Lemmas: the division-checked step never fails -/

lemma pairAccumTermChecked_eq (bI bJ : Body) :
    pairAccumTermChecked bI bJ = some (pairAccumTerm bI bJ) := by
  unfold pairAccumTermChecked pairAccumTerm divChecked
  by_cases h : Vec3.lengthSq (bJ.position - bI.position) < 0.01
  · simp [h]
  · have hne : Vec3.lengthSq (bJ.position - bI.position) ≠ 0 := by
      intro h0
      exact h (by rw [h0]; norm_num)
    simp [h, hne]

lemma netForceChecked_eq (bI : Body) (others : List Body) :
    netForceChecked bI others = some (netForce bI others) := by
  induction others with
  | nil => rfl
  | cons o rest ih =>
      unfold netForceChecked at ih ⊢
      simp only [List.foldr_cons]
      rw [pairAccumTermChecked_eq, ih]
      simp only [Option.bind_eq_bind, Option.some_bind]
      unfold netForce
      simp [List.map_cons, List.sum_cons]

lemma velStepChecked_eq (dt : ℝ) (b : Body) (f : Vec3) :
    velStepChecked dt b f = some (velStep dt b f) := by
  unfold velStepChecked velStep smulInvChecked
  by_cases h : b.mass = 0 <;> simp [h]

lemma velPassChecked_eq (dt : ℝ) :
    ∀ (todo prev : List Body),
      velPassChecked dt prev todo = some (velPass dt prev todo) := by
  intro todo
  induction todo with
  | nil => intro _; rfl
  | cons b rest ih =>
      intro prev
      unfold velPassChecked velPass
      by_cases hs : b.name = "Sun"
      · have hb : stepVel dt b (prev ++ rest) = b := by unfold stepVel; rw [if_pos hs]
        simp [hs, ih, hb]
      · have hb : stepVel dt b (prev ++ rest) = velStep dt b (netForce b (prev ++ rest)) := by
          unfold stepVel; rw [if_neg hs]
        simp [hs, netForceChecked_eq, velStepChecked_eq, ih, hb]

lemma updateChecked_eq (l : List Body) (delta : ℝ) :
    updateChecked l delta = some (update l delta) := by
  unfold updateChecked update updateRaw
  rw [velPassChecked_eq]
  rfl

/-! ### Lemmas: without a `"Sun"` nothing is exempt -/

lemma velPass_eq_uniform (dt : ℝ) :
    ∀ (todo prev : List Body), (∀ b ∈ todo, b.name ≠ "Sun") →
      velPass dt prev todo = velPassUniform dt prev todo := by
  intro todo
  induction todo with
  | nil => intro _ _; rfl
  | cons b rest ih =>
      intro prev h
      have hb : b.name ≠ "Sun" := h b (List.mem_cons_self b rest)
      have htail : ∀ x ∈ rest, x.name ≠ "Sun" :=
        fun x hx => h x (List.mem_cons_of_mem b hx)
      simp only [velPass, velPassUniform, stepVel, if_neg hb]
      rw [ih _ htail]

lemma posPass_eq_uniform (dt : ℝ) (l : List Body)
    (h : ∀ b ∈ l, b.name ≠ "Sun") : posPass dt l = l.map (posStep dt) := by
  unfold posPass
  exact List.map_congr_left (fun b hb => if_neg (h b hb))

lemma velPass_no_sun (dt : ℝ) :
    ∀ (todo prev : List Body), (∀ b ∈ todo, b.name ≠ "Sun") →
      ∀ b2 ∈ velPass dt prev todo, b2.name ≠ "Sun" := by
  intro todo
  induction todo with
  | nil => intro _ _ b2 hb2; simp [velPass] at hb2
  | cons b rest ih =>
      intro prev h b2 hb2
      simp only [velPass, List.mem_cons] at hb2
      rcases hb2 with hb2 | hb2
      · have : (stepVel dt b (prev ++ rest)).name = b.name := (stepVel_agree dt b _).1
        rw [hb2, this]
        exact h b (List.mem_cons_self b rest)
      · exact ih _ (fun x hx => h x (List.mem_cons_of_mem b hx)) b2 hb2

lemma update_eq_uniform (l : List Body) (delta : ℝ)
    (h : ∀ b ∈ l, b.name ≠ "Sun") : update l delta = updateUniform l delta := by
  unfold update updateRaw updateUniform
  rw [velPass_eq_uniform _ _ _ h, posPass_eq_uniform]
  rw [← velPass_eq_uniform _ _ _ h]
  exact velPass_no_sun _ l [] h

lemma initializeOrbitalVelocities_no_sun (l : List Body)
    (h : ∀ b ∈ l, b.name ≠ "Sun") : initializeOrbitalVelocities l = l := by
  unfold initializeOrbitalVelocities getBodyByName
  have : l.find? (fun b => b.name = "Sun") = none := by
    rw [List.find?_eq_none]
    intro b hb
    simpa using h b hb
  rw [this]

/-! ### Lemmas: hull radius interpolation and attachment distances -/

lemma axialDist_polar (θ ρ yc : ℝ) :
    axialDist (Real.cos θ * ρ, yc, Real.sin θ * ρ) = |ρ| := by
  unfold axialDist Vec3.x Vec3.z
  have h : Real.cos θ * ρ * (Real.cos θ * ρ) + Real.sin θ * ρ * (Real.sin θ * ρ)
      = ρ ^ 2 := by
    have hsc := Real.sin_sq_add_cos_sq θ
    linear_combination ρ ^ 2 * hsc
  rw [h, Real.sqrt_sq_eq_abs]

lemma getRadiusAtHeight_pos {yc L rB rT : ℝ} (hB : 0 < rB) (hT : 0 < rT) :
    0 < getRadiusAtHeight yc L rB rT := by
  unfold getRadiusAtHeight
  simp only
  set c := max 0 (min 1 ((yc + L / 2) / L)) with hc
  have h0 : 0 ≤ c := le_max_left 0 _
  have h1 : c ≤ 1 := max_le (by norm_num) (min_le_left 1 _)
  rcases lt_or_ge c 1 with h | h
  · nlinarith
  · have hc1 : c = 1 := le_antisymm h1 h
    rw [hc1]
    nlinarith

lemma wing_axialDist (wc i : ℕ) {yc L rB rT : ℝ} (hB : 0 < rB) (hT : 0 < rT) :
    axialDist (wingAttachPoint wc i yc L rB rT)
      = getRadiusAtHeight yc L rB rT * 0.95 := by
  unfold wingAttachPoint
  rw [axialDist_polar]
  exact abs_of_nonneg (mul_nonneg (getRadiusAtHeight_pos hB hT).le (by norm_num))

lemma pod_axialDist (pc j : ℕ) {yc L rB rT pr : ℝ} (hB : 0 < rB) (hT : 0 < rT)
    (hp : 0 < pr) :
    axialDist (podAttachPoint pc j yc L rB rT pr)
      = getRadiusAtHeight yc L rB rT + pr * 0.6 := by
  unfold podAttachPoint
  rw [axialDist_polar]
  have := @getRadiusAtHeight_pos yc L rB rT hB hT
  exact abs_of_nonneg (by nlinarith)

lemma antenna_axialDist (θ : ℝ) {yc L rB rT : ℝ} (hB : 0 < rB) (hT : 0 < rT) :
    axialDist (antennaBasePoint θ yc L rB rT) = getRadiusAtHeight yc L rB rT := by
  unfold antennaBasePoint
  rw [axialDist_polar]
  exact abs_of_nonneg (getRadiusAtHeight_pos hB hT).le

lemma detail_axialDist (θ : ℝ) {yc L rB rT : ℝ} (hB : 0 < rB) (hT : 0 < rT) :
    axialDist (detailPoint θ yc L rB rT) = getRadiusAtHeight yc L rB rT := by
  unfold detailPoint
  rw [axialDist_polar]
  exact abs_of_nonneg (getRadiusAtHeight_pos hB hT).le

/-! ### Concrete bodies and registries used to evaluate the model -/

/-- The Sun exactly as `SolarSystemBuilder._createSun` registers it. -/
noncomputable def sunBody : Body := ⟨"Sun", SUN_MASS, (0, 0, 0), (0, 0, 0)⟩

/-- A planet-like body seeded on the world X axis, as every planet is
(`planetOrbitAnchor.position.x = data.orbitRadius`). -/
noncomputable def earthBody : Body := ⟨"Earth", 1, (100, 0, 0), (0, 0, 0)⟩

/-- A zero-mass body with a nonzero velocity. -/
noncomputable def ghostBody : Body := ⟨"Ghost", 0, (10, 0, 0), (0, 0, 1)⟩

/-- A unit-mass body drifting along X, far from everything. -/
noncomputable def probeBody : Body := ⟨"Probe", 1, (0, 0, 0), (1, 0, 0)⟩

/-- Bodies for permutation witnesses. -/
noncomputable def bodyA : Body := ⟨"A", 1, (0, 0, 0), (0, 0, 0)⟩

noncomputable def bodyB : Body := ⟨"B", 2, (5, 0, 0), (0, 0, 0)⟩

noncomputable def bodyC : Body := ⟨"C", 3, (0, 5, 0), (0, 0, 0)⟩

/-- Two bodies at identical positions. -/
noncomputable def coincidentP : Body := ⟨"P1", 1, (1, 1, 1), (0, 0, 0)⟩

noncomputable def coincidentQ : Body := ⟨"P2", 1, (1, 1, 1), (0, 0, 0)⟩

/-- A well-formed `addBody` argument whose mass is zero. -/
noncomputable def rawZeroMass : RawBody :=
  ⟨"Z", true, some 0, some (0, 0, 0), some (0, 0, 0)⟩

/-- A well-formed `addBody` argument. -/
noncomputable def rawGood : RawBody :=
  ⟨"X", true, some 1, some (0, 0, 0), some (0, 0, 0)⟩

/-- An `addBody` argument with an absent velocity. -/
noncomputable def rawNoVel : RawBody :=
  ⟨"Y", true, some 1, some (0, 0, 0), none⟩

/-- The belt used to evaluate the rebuild: 100 asteroids of total mass 50,
initially grouped 50 per group, as `ASTEROID_BELT_DATA`-style data. -/
noncomputable def beltX : BeltData := ⟨"Belt", 100, 50, 8, 12⟩

/-- A builder with an empty registry and no stored anchors. -/
def builderInit : BuilderState := ⟨[], []⟩

/-! ### Lemmas: `addBody` validation -/

lemma addBody_accepts (l : List Body) (r : RawBody) (m : ℝ) (p v : Vec3)
    (hm : r.mass = some m) (hp : r.position = some p) (hv : r.velocity = some v)
    (hn : r.name ≠ "") (hmesh : r.mesh = true) :
    addBody l r = l ++ [⟨r.name, m, p, v⟩] := by
  unfold addBody
  rw [hm, hp, hv]
  show (if r.name ≠ "" ∧ r.mesh = true then l ++ [⟨r.name, m, p, v⟩] else l)
      = l ++ [⟨r.name, m, p, v⟩]
  exact if_pos ⟨hn, hmesh⟩

lemma addBody_rejects (l : List Body) (r : RawBody)
    (h : r.name = "" ∨ r.mesh = false ∨ r.mass = none ∨ r.position = none ∨
      r.velocity = none) :
    addBody l r = l := by
  cases hm : r.mass with
  | none => simp [addBody, hm]
  | some m =>
      cases hp : r.position with
      | none => simp [addBody, hm, hp]
      | some p =>
          cases hv : r.velocity with
          | none => simp [addBody, hm, hp, hv]
          | some v =>
              rcases h with h | h | h | h | h
              · simp [addBody, hm, hp, hv, h]
              · simp [addBody, hm, hp, hv, h]
              · rw [hm] at h; exact absurd h (by simp)
              · rw [hp] at h; exact absurd h (by simp)
              · rw [hv] at h; exact absurd h (by simp)

/-! ### The claims -/

/-- Claim C1: for every registry and timestep, `PhysicsEngine.update(dt)`
yields the same final positions and velocities as the reference two-phase
computation in which every non-anchor body's net force is evaluated on
the pre-step positions of all bodies before any position is mutated, and
the result does not depend on the iteration order over bodies: the net
force is invariant under permutation of the other bodies, and a permuted
registry produces the correspondingly permuted result. -/
theorem claim_C1_two_phase_order_independent :
    (∀ (l : List Body) (delta : ℝ), update l delta = twoPhase l (min delta 0.016)) ∧
    (∀ (b : Body) (o1 o2 : List Body), o1.Perm o2 → netForce b o1 = netForce b o2) ∧
    (∀ (delta : ℝ) (l1 l2 : List Body), l1.Perm l2 →
      (update l1 delta).Perm (update l2 delta)) :=
  ⟨update_eq_twoPhase,
   fun b _ _ h => netForce_perm b h,
   fun delta _ _ h => update_perm delta h⟩

theorem claim_C1_witness :
    update [bodyA, bodyB] 1 = twoPhase [bodyA, bodyB] (min 1 0.016) ∧
    netForce bodyA [bodyB, bodyC] = netForce bodyA [bodyC, bodyB] ∧
    (update [bodyB, bodyC] 1).Perm (update [bodyC, bodyB] 1) :=
  ⟨claim_C1_two_phase_order_independent.1 [bodyA, bodyB] 1,
   claim_C1_two_phase_order_independent.2.1 bodyA [bodyB, bodyC] [bodyC, bodyB]
     (List.Perm.swap bodyC bodyB []),
   claim_C1_two_phase_order_independent.2.2 1 [bodyB, bodyC] [bodyC, bodyB]
     (List.Perm.swap bodyC bodyB [])⟩

/-- Claim C2 (evaluation of the code at the failing input): for a
registry holding the Sun and a body exactly on the world X axis at
`(100, 0, 0)` — as every planet is seeded — `initializeOrbitalVelocities`
takes the general-tangent branch (because the source tests `|x| > 0.01 ||
|y| > 0.01` rather than proximity to the X axis) and assigns
`(0, 0, +speed)`, not the fixed tangent `(0, 0, -speed)` the claim
demands for bodies on the X axis. -/
theorem claim_C2_x_axis_gets_positive_z_velocity :
    (initializeOrbitalVelocities [sunBody, earthBody]).map Body.velocity
      = [(0, 0, 0), ((0:ℝ), 0, Real.sqrt (GRAVITATIONAL_CONSTANT * SUN_MASS / 100))] ∧
    0 < Real.sqrt (GRAVITATIONAL_CONSTANT * SUN_MASS / 100) ∧
    ((0:ℝ), 0, Real.sqrt (GRAVITATIONAL_CONSTANT * SUN_MASS / 100))
      ≠ ((0:ℝ), 0, -Real.sqrt (GRAVITATIONAL_CONSTANT * SUN_MASS / 100)) := by
  have hpos : 0 < Real.sqrt (GRAVITATIONAL_CONSTANT * SUN_MASS / 100) := by
    rw [Real.sqrt_pos]
    norm_num [GRAVITATIONAL_CONSTANT, SUN_MASS]
  refine ⟨?_, hpos, ?_⟩
  · have hsq : Real.sqrt 10000 = 100 := by
      rw [show (10000:ℝ) = 100 ^ 2 by norm_num, Real.sqrt_sq (by norm_num : (0:ℝ) ≤ 100)]
    have hlen : Vec3.length ((100:ℝ), 0, 0) = 100 := by
      unfold Vec3.length Vec3.lengthSq Vec3.x Vec3.y Vec3.z
      norm_num [hsq]
    have hnorm : Vec3.normalize (-(0:ℝ), 0, 100) = (0, 0, 1) := by
      unfold Vec3.normalize Vec3.length Vec3.lengthSq Vec3.x Vec3.y Vec3.z
      norm_num [hsq, Prod.smul_mk, smul_eq_mul]
    simp only [initializeOrbitalVelocities, sunBody, earthBody]
    rw [show getBodyByName [⟨"Sun", SUN_MASS, (0,0,0), (0,0,0)⟩,
          ⟨"Earth", 1, (100,0,0), (0,0,0)⟩] "Sun"
        = some ⟨"Sun", SUN_MASS, (0,0,0), (0,0,0)⟩ from rfl]
    simp only [List.map_cons, List.map_nil, Vec3.x, Vec3.y, Vec3.z, hlen, hnorm,
      eq_self_iff_true, if_true, (by decide : ¬ ("Earth":String) = "Sun"), if_false,
      ite_false, ite_true]
    rw [if_neg (by norm_num : ¬ ((100:ℝ) < 0.1)),
      if_pos (by norm_num : (0.01:ℝ) < |(100:ℝ)| ∨ (0.01:ℝ) < |(0:ℝ)|)]
    simp only [Prod.smul_mk, smul_eq_mul, mul_one, mul_zero]
  · intro h
    simp only [Prod.mk.injEq, true_and] at h
    nlinarith [hpos, h]

/-- Claim C3 counterexample: a record whose mass is `0` — which the claim
says must be rejected, leaving the registry unchanged — is appended by
`addBody`, because the source only checks `mass !== undefined`. -/
theorem claim_C3_counterexample_zero_mass_accepted :
    rawZeroMass.mass = some 0 ∧
    addBody [] rawZeroMass = [⟨"Z", 0, (0, 0, 0), (0, 0, 0)⟩] :=
  ⟨rfl, rfl⟩

/-- Claim C3 as amended: `addBody(body)` appends the body if and only if
its name is a nonempty string, a mesh is present, and mass, position and
velocity are all defined; the mass is checked only for definedness, so a
zero (or negative) mass is accepted.  On rejection nothing is thrown and
the registry is unchanged. -/
theorem claim_C3_amended_validation :
    (∀ (l : List Body) (r : RawBody) (m : ℝ) (p v : Vec3),
        r.mass = some m → r.position = some p → r.velocity = some v →
        r.name ≠ "" → r.mesh = true →
        addBody l r = l ++ [⟨r.name, m, p, v⟩]) ∧
    (∀ (l : List Body) (r : RawBody),
        r.name = "" ∨ r.mesh = false ∨ r.mass = none ∨ r.position = none ∨
          r.velocity = none →
        addBody l r = l) :=
  ⟨addBody_accepts, addBody_rejects⟩

theorem claim_C3_witness :
    addBody [] rawGood = [⟨"X", 1, (0, 0, 0), (0, 0, 0)⟩] ∧
    addBody [] rawNoVel = [] :=
  ⟨claim_C3_amended_validation.1 [] rawGood 1 (0, 0, 0) (0, 0, 0) rfl rfl rfl
      (by decide) rfl,
   claim_C3_amended_validation.2 [] rawNoVel (by
      right; right; right; right; rfl)⟩

/-- Claim C4: across any sequence of `update` calls the body named
`"Sun"` keeps its position, while its pair term still appears in the net
force accumulated on every other body (the inner loop sums over the full
registry, anchor included). -/
theorem claim_C4_anchor_invariant :
    (∀ (l : List Body) (ds : List ℝ) (i : ℕ) (b : Body),
        l[i]? = some b → b.name = "Sun" →
        ∃ b2, (updates l ds)[i]? = some b2 ∧ b2.position = b.position) ∧
    (∀ (bI sun : Body) (pre post : List Body),
        netForce bI (pre ++ sun :: post)
          = netForce bI (pre ++ post) + pairAccumTerm bI sun) := by
  constructor
  · intro l ds i b hi hsun
    obtain ⟨b2, h2, hname, hpos⟩ := forall₂_getElem? (updates_forall₂ ds l) i b hi
    exact ⟨b2, h2, hpos hsun⟩
  · exact netForce_append_cons

theorem claim_C4_witness :
    (∃ b2, (updates [sunBody, earthBody] [0.016, 0.016])[0]? = some b2 ∧
      b2.position = sunBody.position) ∧
    netForce earthBody ([] ++ sunBody :: [])
      = netForce earthBody ([] ++ []) + pairAccumTerm earthBody sunBody :=
  ⟨claim_C4_anchor_invariant.1 [sunBody, earthBody] [0.016, 0.016] 0 sunBody rfl rfl,
   claim_C4_anchor_invariant.2 earthBody sunBody [] []⟩

/-- Claim C5: any pair of bodies whose squared separation is below `0.01`
contributes no force, and the step never divides by zero: the
division-checked mirror of `update` succeeds on every input and returns
exactly the plain result, so coincident bodies cannot produce the
real-arithmetic counterpart of `NaN`/`Infinity` in any position or
velocity. -/
theorem claim_C5_singularity_safety :
    (∀ bI bJ : Body, (bJ.position - bI.position).lengthSq < 0.01 →
        pairAccumTerm bI bJ = 0) ∧
    (∀ (l : List Body) (delta : ℝ), updateChecked l delta = some (update l delta)) := by
  constructor
  · intro bI bJ h
    simp only [pairAccumTerm]
    rw [if_pos h]
  · exact updateChecked_eq

theorem claim_C5_witness :
    pairAccumTerm coincidentP coincidentQ = 0 ∧
    updateChecked [coincidentP, coincidentQ] 1
      = some (update [coincidentP, coincidentQ] 1) :=
  ⟨claim_C5_singularity_safety.1 coincidentP coincidentQ (by
      simp only [coincidentP, coincidentQ, Vec3.lengthSq, Vec3.x, Vec3.y, Vec3.z,
        Prod.mk_sub_mk]
      norm_num),
   claim_C5_singularity_safety.2 [coincidentP, coincidentQ] 1⟩

/-- Claim C6 counterexample: a zero-mass, non-anchor body with a nonzero
velocity *does* move — `update` advances every non-anchor body's position
by `v·dt`, and the zero-mass guard skips only the velocity update — so
"the body never moves" fails. -/
theorem claim_C6_counterexample_zero_mass_body_moves :
    (update [ghostBody] 0.016).map Body.position ≠ [ghostBody.position] := by
  have heval : (update [ghostBody] 0.016).map Body.position = [((10:ℝ), 0, 2/125)] := by
    simp only [update, updateRaw, velPass, posPass, stepVel, velStep, netForce,
      ghostBody, List.append_nil, List.nil_append, List.map_nil, List.sum_nil,
      List.map_cons]
    norm_num [(by decide : ¬ ("Ghost":String) = "Sun"), posStep, Prod.mk_add_mk,
      Prod.smul_mk, smul_eq_mul, Prod.mk.injEq]
  rw [heval]
  simp only [ghostBody, List.cons.injEq, Prod.mk.injEq, and_true, ne_eq, not_and]
  intro h
  norm_num

/-- Claim C6 as amended: a non-anchor body of mass `0` keeps its velocity
(the velocity update is skipped with a warning) and exerts zero force on
every other body, but its position still advances by `velocity · dt`; it
stays put only if its velocity is zero. -/
theorem claim_C6_amended_zero_mass :
    (∀ bI bJ : Body, bJ.mass = 0 → pairAccumTerm bI bJ = 0) ∧
    (∀ (l : List Body) (delta : ℝ) (i : ℕ) (b : Body),
        l[i]? = some b → b.mass = 0 → b.name ≠ "Sun" →
        ∃ b2, (update l delta)[i]? = some b2 ∧ b2.velocity = b.velocity ∧
          b2.position = b.position + (min delta 0.016) • b.velocity) := by
  constructor
  · intro bI bJ h
    simp [pairAccumTerm, h]
  · intro l delta i b hi h0 hns
    obtain ⟨b2, h2, hname, hmass, hsun, hzm⟩ :=
      forall₂_getElem? (update_forall₂ l delta) i b hi
    exact ⟨b2, h2, hzm ⟨h0, hns⟩⟩

theorem claim_C6_witness :
    pairAccumTerm probeBody ghostBody = 0 ∧
    (∃ b2, (update [ghostBody] 1)[0]? = some b2 ∧
      b2.velocity = ghostBody.velocity ∧
      b2.position = ghostBody.position + (min (1:ℝ) 0.016) • ghostBody.velocity) :=
  ⟨claim_C6_amended_zero_mass.1 probeBody ghostBody rfl,
   claim_C6_amended_zero_mass.2 [ghostBody] 1 0 ghostBody rfl rfl (by decide)⟩

/-- Claim C7 counterexample: the clamp constant is `0.016`, not
`1/60 ≈ 0.016667`: at `delta = 1/60` — which the claim says is used
unchanged since `1/60 ≤ 1/60` — the step differs from an unclamped step
of `1/60`. -/
theorem claim_C7_counterexample_clamp_is_0016 :
    update [probeBody] (1/60) ≠ updateRaw [probeBody] (1/60) := by
  simp only [update, updateRaw, velPass, posPass, stepVel, velStep, netForce,
    probeBody, List.append_nil, List.nil_append, List.map_nil, List.sum_nil,
    List.map_cons]
  norm_num [(by decide : ¬ ("Probe":String) = "Sun"), posStep, Prod.mk_add_mk,
    Prod.smul_mk, smul_eq_mul, Prod.mk.injEq, Body.mk.injEq]

/-- Claim C7 as amended: `update(delta)` integrates velocity and position
with the clamped timestep `dt = min(delta, 0.016)`: any `delta ≤ 0.016`
is used unchanged, and any larger `delta` behaves exactly as a step of
`0.016` seconds. -/
theorem claim_C7_amended_clamp :
    (∀ (l : List Body) (delta : ℝ), delta ≤ 0.016 →
        update l delta = updateRaw l delta) ∧
    (∀ (l : List Body) (delta : ℝ), 0.016 < delta →
        update l delta = updateRaw l 0.016) := by
  constructor
  · intro l delta h
    unfold update
    rw [min_eq_left h]
  · intro l delta h
    unfold update
    rw [min_eq_right h.le]

theorem claim_C7_witness :
    update [probeBody] 0.01 = updateRaw [probeBody] 0.01 ∧
    update [probeBody] 1 = updateRaw [probeBody] 0.016 :=
  ⟨claim_C7_amended_clamp.1 [probeBody] 0.01 (by norm_num),
   claim_C7_amended_clamp.2 [probeBody] 1 (by norm_num)⟩

/-- Claim C8 (evaluation of the code at the failing input): for a belt of
100 asteroids, total mass 50, built with group size 50 (two groups) and
rebuilt with group size 25, the registry ends with *six* group bodies —
the two old ones (`Belt_Group_0`, `Belt_Group_1`) are still there,
duplicated by the four new ones — because `rebuildAsteroidBelt` removes
by `anchor.name`, and every group anchor's `Object3D.name` was never
assigned and is still `""` (third conjunct), so `removeBodyByName("")`
matches nothing.  The claim demands exactly `ceil(100/25) = 4` group
bodies after the rebuild. -/
theorem claim_C8_rebuild_leaves_old_groups :
    ((rebuildAsteroidBelt beltX 25 (createAsteroidBeltGroups beltX 50 builderInit)).bodies.map
        Body.name)
      = ["Belt_Group_0", "Belt_Group_1",
         "Belt_Group_0", "Belt_Group_1", "Belt_Group_2", "Belt_Group_3"] ∧
    numGroups beltX.count 25 = 4 ∧
    ((createAsteroidBeltGroups beltX 50 builderInit).beltAnchors.map Anchor.objName)
      = ["", ""] :=
  ⟨rfl, rfl, rfl⟩

/-- Claim C9 counterexample: a wing attachment point sits at `0.95 ×` the
hull's interpolated radius, strictly *inside* the hull: with hull length
6, bottom and top radius 1, wing height 0 and the first of two wings, the
attachment point's distance from the long axis is `0.95 < 1`. -/
theorem claim_C9_counterexample_wing_inside_hull :
    ¬ (getRadiusAtHeight 0 6 1 1 ≤ axialDist (wingAttachPoint 2 0 0 6 1 1)) := by
  have hr : getRadiusAtHeight 0 6 1 1 = 1 := by
    unfold getRadiusAtHeight
    norm_num
  rw [wing_axialDist 2 0 one_pos one_pos, hr]
  norm_num

/-- Claim C9 as amended: pod, antenna and decorative-detail attachment
points lie at a radial distance from the hull's long axis that is `≥` the
interpolated hull radius at their height (pods strictly outside by
`0.6 × podRadius`, antennas and details exactly on the surface), but each
*wing* attachment point lies at exactly `0.95 ×` the interpolated radius
— strictly inside the hull whenever the radii are positive. -/
theorem claim_C9_amended_attachment_distances :
    ∀ (wc i pc j : ℕ) (yW yP yA yD L rB rT pr tA tD : ℝ),
      0 < rB → 0 < rT → 0 < pr →
      (axialDist (wingAttachPoint wc i yW L rB rT)
          = getRadiusAtHeight yW L rB rT * 0.95 ∧
        axialDist (wingAttachPoint wc i yW L rB rT) < getRadiusAtHeight yW L rB rT) ∧
      getRadiusAtHeight yP L rB rT ≤ axialDist (podAttachPoint pc j yP L rB rT pr) ∧
      axialDist (antennaBasePoint tA yA L rB rT) = getRadiusAtHeight yA L rB rT ∧
      axialDist (detailPoint tD yD L rB rT) = getRadiusAtHeight yD L rB rT := by
  intro wc i pc j yW yP yA yD L rB rT pr tA tD hB hT hp
  refine ⟨⟨wing_axialDist wc i hB hT, ?_⟩, ?_, antenna_axialDist tA hB hT,
    detail_axialDist tD hB hT⟩
  · rw [wing_axialDist wc i hB hT]
    have := @getRadiusAtHeight_pos yW L rB rT hB hT
    nlinarith
  · rw [pod_axialDist pc j hB hT hp]
    nlinarith

theorem claim_C9_witness :
    ((axialDist (wingAttachPoint 2 0 0 6 1 1) = getRadiusAtHeight 0 6 1 1 * 0.95 ∧
        axialDist (wingAttachPoint 2 0 0 6 1 1) < getRadiusAtHeight 0 6 1 1) ∧
      getRadiusAtHeight 0 6 1 1 ≤ axialDist (podAttachPoint 2 0 0 6 1 1 (1/4)) ∧
      axialDist (antennaBasePoint 0 0 6 1 1) = getRadiusAtHeight 0 6 1 1 ∧
      axialDist (detailPoint 0 0 6 1 1) = getRadiusAtHeight 0 6 1 1) :=
  claim_C9_amended_attachment_distances 2 0 2 0 0 0 0 0 6 1 1 (1/4) 0 0
    one_pos one_pos (by norm_num)

/-- Claim C10: the anchor is designated purely by the literal name
`"Sun"`: when no registry body carries that name,
`initializeOrbitalVelocities` logs an error and returns with the registry
untouched, and `update` integrates every body — the step coincides with
the uniform step that exempts nobody. -/
theorem claim_C10_no_sun_anchor :
    (∀ l : List Body, (∀ b ∈ l, b.name ≠ "Sun") →
        initializeOrbitalVelocities l = l) ∧
    (∀ (l : List Body) (delta : ℝ), (∀ b ∈ l, b.name ≠ "Sun") →
        update l delta = updateUniform l delta) :=
  ⟨initializeOrbitalVelocities_no_sun, update_eq_uniform⟩

theorem claim_C10_witness :
    initializeOrbitalVelocities [probeBody, bodyA] = [probeBody, bodyA] ∧
    update [probeBody] 1 = updateUniform [probeBody] 1 :=
  ⟨claim_C10_no_sun_anchor.1 [probeBody, bodyA]
      (by intro b hb; fin_cases hb <;> decide),
   claim_C10_no_sun_anchor.2 [probeBody] 1
      (by intro b hb; fin_cases hb; decide)⟩

end Terra
